import Mathlib

/-!
Shallow embedding of `src/il_interpreter.py`: a small interpreter for an
"Instruction List" (IL) language with a single accumulator `ACC`, a register
table (a Python dict from names to int-or-bool values), a label table and a
fetch-execute loop.  Python integers are modelled as `Int`, with Python's
`& 0xFFFFFFFF` masking written as `% 2^32` (the two agree on every `Int`),
Python `//` as `Int.fdiv`, Python `%` as `Int.fmod`, and Python's bitwise
operators as `Int.land` / `Int.lor` / `Int.xor` / `Int.lnot` (infinite
two's-complement semantics, as in Python).  Exceptions are modelled with
`Except`; since the Python object keeps its mutations when an exception
escapes, `run` and `load_program` return the state reached at the point of
failure together with the error.
-/

/-- A value stored in the register table: Python ints and bools.
(Python's `bool` is a subclass of `int`; the coercion is `Value.toInt`.) -/
inductive Value where
  | int (n : Int)
  | bool (b : Bool)
deriving DecidableEq, Repr

/-- Python's implicit bool-to-int coercion: `True == 1`, `False == 0`. -/
def Value.toInt : Value → Int
  | .int n => n
  | .bool b => if b then 1 else 0

/-- Python truthiness of a register value: nonzero int or `True`. -/
def Value.truthy : Value → Bool
  | .int n => n != 0
  | .bool b => b

/-- Python's `& 0xFFFFFFFF` on an arbitrary int: reduction mod `2^32`
(Python's bitwise AND with the mask agrees with `emod` on all ints). -/
def mask32 (n : Int) : Int := n % 4294967296

/-- Lookup in a Python dict modelled as an association list with unique keys. -/
def dictGet {α : Type} : List (String × α) → String → Option α
  | [], _ => none
  | (k, v) :: rest, key => if k = key then some v else dictGet rest key

/-- The `d[key] = val` on a Python dict: overwrite in place, or append a new key. -/
def dictSet {α : Type} : List (String × α) → String → α → List (String × α)
  | [], key, val => [(key, val)]
  | (k, v) :: rest, key, val =>
    if k = key then (key, val) :: rest else (k, v) :: dictSet rest key val

/-- The exceptions the interpreter can raise (Python `ValueError` from the
parser carries the unknown mnemonic; `KeyError` from dict lookups;
`ZeroDivisionError` from `//=` and `%=`; `TypeError` from calling a command
constructor with the wrong number of arguments; `IndexError` from `parts[0]`
on an empty list). -/
inductive IlError where
  | zeroDivision
  | keyMissing (k : String)
  | unknownInstruction (m : String)
  | typeError
  | indexError
deriving DecidableEq, Repr

/-- The parsed instruction variants, one per `Command` subclass in the source. -/
inductive Command where
  | load (e : String)
  | store (v : String)
  | and (e : String)
  | andn (e : String)
  | or (e : String)
  | orn (e : String)
  | xor (e : String)
  | xorn (e : String)
  | add (e : String)
  | sub (e : String)
  | mul (e : String)
  | div (e : String)
  | mod (e : String)
  | not
  | s (v : String)
  | r (v : String)
  | jmp (l : String)
  | jmpc (l : String)
  | jmpnc (l : String)
deriving DecidableEq, Repr

/-- The `ILInterpreter` object's mutable state. -/
structure ILInterpreter where
  registers : List (String × Value)
  program : List Command
  program_counter : Int
  labels : List (String × Nat)
deriving DecidableEq, Repr

/-- The `ILInterpreter.__init__`: `registers = {'ACC': 0}`, empty program,
`program_counter = 0`, empty label table. -/
def initInterpreter : ILInterpreter :=
  { registers := [("ACC", Value.int 0)]
    program := []
    program_counter := 0
    labels := [] }

/-- Python `str.isdigit` restricted to ASCII: nonempty and all chars digits. -/
def pyIsDigit (st : String) : Bool :=
  !st.data.isEmpty && st.data.all Char.isDigit

/-- Value of a decimal digit string (`int(s)` on an all-digit string). -/
def decimalValue (st : String) : Int :=
  (st.data.foldl (fun acc c => acc * 10 + (c.toNat - 48)) 0 : Nat)

/-- Does the token start with the literal prefix `16#`? -/
def startsWith16 (st : String) : Bool :=
  match st.data with
  | '1' :: '6' :: '#' :: _ => true
  | _ => false

/-- The chars of the token after the `16#` prefix. -/
def afterPrefix16 (st : String) : List Char := st.data.drop 3

/-- Hex digit value, if the char is a hex digit. -/
def hexDigit (c : Char) : Option Nat :=
  if '0' ≤ c ∧ c ≤ '9' then some (c.toNat - 48)
  else if 'a' ≤ c ∧ c ≤ 'f' then some (c.toNat - 87)
  else if 'A' ≤ c ∧ c ≤ 'F' then some (c.toNat - 55)
  else none

/-- Accumulate hex digits; `none` as soon as a char is not a hex digit. -/
def hexDigitsValue (acc : Nat) : List Char → Option Nat
  | [] => some acc
  | c :: rest =>
    match hexDigit c with
    | some d => hexDigitsValue (acc * 16 + d) rest
    | none => none

/-- Python `int(s, 16)`: optional sign, then one or more hex digits;
`none` models the `ValueError` that `int` raises on malformed input. -/
def pyIntHex : List Char → Option Int
  | [] => none
  | '-' :: rest =>
    if rest.isEmpty then none else (hexDigitsValue 0 rest).map (fun n => -(n : Int))
  | '+' :: rest =>
    if rest.isEmpty then none else (hexDigitsValue 0 rest).map (fun n => (n : Int))
  | cs => (hexDigitsValue 0 cs).map (fun n => (n : Int))

/-- The `ILInterpreter.evaluate_expression`: the whole body sits in a
`try/except ValueError` that prints and returns `0`, so the function is
total -- an unknown token or a malformed hex literal yields `0`. -/
def evaluate_expression (st : ILInterpreter) (e : String) : Int :=
  if pyIsDigit e then mask32 (decimalValue e)
  else if startsWith16 e then
    match pyIntHex (afterPrefix16 e) with
    | some n => mask32 n
    | none => 0
  else
    match dictGet st.registers e with
    | some v => mask32 v.toInt
    | none => 0

example : evaluate_expression initInterpreter "37" = 37 := by decide
example : evaluate_expression initInterpreter "16#FF" = 255 := by decide
example : evaluate_expression initInterpreter "16#GZ" = 0 := by decide
example : evaluate_expression initInterpreter "X" = 0 := by decide
example : evaluate_expression initInterpreter "ACC" = 0 := by decide

/-- The `interpreter.registers[k]`: raises `KeyError` when the key is absent. -/
def getRegister (st : ILInterpreter) (k : String) : Except IlError Value :=
  match dictGet st.registers k with
  | some v => Except.ok v
  | none => Except.error (IlError.keyMissing k)

/-- Write one register: `interpreter.registers[k] = v`. -/
def setRegister (st : ILInterpreter) (k : String) (v : Value) : ILInterpreter :=
  { st with registers := dictSet st.registers k v }

/-- The `debug_registers` (invoked by `debug_decorator` after every successful
`execute`): rebuilds the dict, masking every int value to 32 bits.  Since
Python's `True`/`False` are `int` instances, booleans are rewritten to the
masked ints `1`/`0` here. -/
def debug_registers (registers : List (String × Value)) : List (String × Value) :=
  registers.map (fun kv => (kv.1, Value.int (mask32 kv.2.toInt)))

/-- The `LoadCommand.execute`: `ACC = evaluate_expression(expr) & 0xFFFFFFFF`. -/
def executeLoad (st : ILInterpreter) (e : String) : ILInterpreter :=
  setRegister st "ACC" (Value.int (mask32 (evaluate_expression st e)))

/-- The `StoreCommand.execute`: `registers[var] = registers['ACC']`. -/
def executeStore (st : ILInterpreter) (v : String) : Except IlError ILInterpreter := do
  let acc ← getRegister st "ACC"
  Except.ok (setRegister st v acc)

/-- The `AndCommand.apply_operation`: `result = ACC & value; ACC = result & mask`. -/
def applyAnd (st : ILInterpreter) (value : Int) : Except IlError ILInterpreter := do
  let acc ← getRegister st "ACC"
  Except.ok (setRegister st "ACC" (Value.int (mask32 (Int.land acc.toInt value))))

/-- The `OrCommand.apply_operation`: `result = ACC | value; ACC = result & mask`. -/
def applyOr (st : ILInterpreter) (value : Int) : Except IlError ILInterpreter := do
  let acc ← getRegister st "ACC"
  Except.ok (setRegister st "ACC" (Value.int (mask32 (Int.lor acc.toInt value))))

/-- The `AddCommand.apply_operation`: `result = ACC + value; ACC = result & mask`. -/
def applyAdd (st : ILInterpreter) (value : Int) : Except IlError ILInterpreter := do
  let acc ← getRegister st "ACC"
  Except.ok (setRegister st "ACC" (Value.int (mask32 (acc.toInt + value))))

/-- The `SubCommand.apply_operation`: `result = ACC - value; ACC = result & mask`. -/
def applySub (st : ILInterpreter) (value : Int) : Except IlError ILInterpreter := do
  let acc ← getRegister st "ACC"
  Except.ok (setRegister st "ACC" (Value.int (mask32 (acc.toInt - value))))

/-- The `OrnCommand.apply_operation`: invert the operand, OR, mask. -/
def applyOrn (st : ILInterpreter) (value : Int) : Except IlError ILInterpreter := do
  let acc ← getRegister st "ACC"
  Except.ok (setRegister st "ACC"
    (Value.int (mask32 (Int.lor acc.toInt (mask32 (Int.lnot value))))))

/-- The `XorCommand.apply_operation`: `ACC ^= value` (no mask of its own; the
caller `BinaryCommand.execute` re-masks ACC afterwards). -/
def applyXor (st : ILInterpreter) (value : Int) : Except IlError ILInterpreter := do
  let acc ← getRegister st "ACC"
  Except.ok (setRegister st "ACC" (Value.int (Int.xor acc.toInt value)))

/-- The `XornCommand.apply_operation`: invert the operand, XOR, mask. -/
def applyXorn (st : ILInterpreter) (value : Int) : Except IlError ILInterpreter := do
  let acc ← getRegister st "ACC"
  Except.ok (setRegister st "ACC"
    (Value.int (mask32 (Int.xor acc.toInt (mask32 (Int.lnot value))))))

/-- The `MulCommand.apply_operation`: `ACC *= value` (caller re-masks). -/
def applyMul (st : ILInterpreter) (value : Int) : Except IlError ILInterpreter := do
  let acc ← getRegister st "ACC"
  Except.ok (setRegister st "ACC" (Value.int (acc.toInt * value)))

/-- The `DivCommand.apply_operation`: `ACC //= value`; Python floor division
raises `ZeroDivisionError` when `value == 0`. -/
def applyDiv (st : ILInterpreter) (value : Int) : Except IlError ILInterpreter := do
  let acc ← getRegister st "ACC"
  if value = 0 then Except.error IlError.zeroDivision
  else Except.ok (setRegister st "ACC" (Value.int (Int.fdiv acc.toInt value)))

/-- The `ModCommand.apply_operation`: `ACC %= value`; raises on `value == 0`. -/
def applyMod (st : ILInterpreter) (value : Int) : Except IlError ILInterpreter := do
  let acc ← getRegister st "ACC"
  if value = 0 then Except.error IlError.zeroDivision
  else Except.ok (setRegister st "ACC" (Value.int (Int.fmod acc.toInt value)))

/-- The `BinaryCommand.execute`: evaluate and mask the operand, run the
subclass's `apply_operation`, then `ACC &= 0xFFFFFFFF`. -/
def binaryExecute (applyOp : ILInterpreter → Int → Except IlError ILInterpreter)
    (st : ILInterpreter) (e : String) : Except IlError ILInterpreter := do
  let value := mask32 (evaluate_expression st e)
  let st1 ← applyOp st value
  let acc ← getRegister st1 "ACC"
  Except.ok (setRegister st1 "ACC" (Value.int (mask32 acc.toInt)))

/-- The `NotBinaryCommand.execute` (used by `ANDN`): evaluate and mask the
operand and run `apply_operation`, without the final `ACC &= mask` step. -/
def notBinaryExecute (applyOp : ILInterpreter → Int → Except IlError ILInterpreter)
    (st : ILInterpreter) (e : String) : Except IlError ILInterpreter :=
  applyOp st (mask32 (evaluate_expression st e))

/-- The `AndnCommand.apply_operation`: invert the operand, AND, mask. -/
def applyAndn (st : ILInterpreter) (value : Int) : Except IlError ILInterpreter := do
  let acc ← getRegister st "ACC"
  Except.ok (setRegister st "ACC"
    (Value.int (mask32 (Int.land acc.toInt (mask32 (Int.lnot value))))))

/-- The `NotCommand.execute`: `ACC = ~ACC & mask`. -/
def executeNot (st : ILInterpreter) : Except IlError ILInterpreter := do
  let acc ← getRegister st "ACC"
  Except.ok (setRegister st "ACC" (Value.int (mask32 (Int.lnot acc.toInt))))

/-- The `ConditionalCommand.execute` (`S` / `R`): write the boolean only when
ACC is truthy, otherwise change nothing. -/
def executeConditional (st : ILInterpreter) (v : String) (b : Bool) :
    Except IlError ILInterpreter := do
  let acc ← getRegister st "ACC"
  if acc.truthy then Except.ok (setRegister st v (Value.bool b))
  else Except.ok st

/-- The `interpreter.labels[l]`: raises `KeyError` when the label is absent. -/
def getLabel (st : ILInterpreter) (l : String) : Except IlError Nat :=
  match dictGet st.labels l with
  | some idx => Except.ok idx
  | none => Except.error (IlError.keyMissing l)

/-- The `JmpCommand.execute`: `program_counter = labels[label] - 1`. -/
def executeJmp (st : ILInterpreter) (l : String) : Except IlError ILInterpreter := do
  let idx ← getLabel st l
  Except.ok { st with program_counter := (idx : Int) - 1 }

/-- The `JmpcCommand.execute`: jump only when ACC is truthy. -/
def executeJmpc (st : ILInterpreter) (l : String) : Except IlError ILInterpreter := do
  let acc ← getRegister st "ACC"
  if acc.truthy then do
    let idx ← getLabel st l
    Except.ok { st with program_counter := (idx : Int) - 1 }
  else Except.ok st

/-- The `JmpncCommand.execute`: jump only when ACC is falsy. -/
def executeJmpnc (st : ILInterpreter) (l : String) : Except IlError ILInterpreter := do
  let acc ← getRegister st "ACC"
  if acc.truthy then Except.ok st
  else do
    let idx ← getLabel st l
    Except.ok { st with program_counter := (idx : Int) - 1 }

/-- The raw `execute` of each command subclass, before the decorator. -/
def rawExecute (st : ILInterpreter) : Command → Except IlError ILInterpreter
  | .load e => Except.ok (executeLoad st e)
  | .store v => executeStore st v
  | .and e => binaryExecute applyAnd st e
  | .andn e => notBinaryExecute applyAndn st e
  | .or e => binaryExecute applyOr st e
  | .orn e => binaryExecute applyOrn st e
  | .xor e => binaryExecute applyXor st e
  | .xorn e => binaryExecute applyXorn st e
  | .add e => binaryExecute applyAdd st e
  | .sub e => binaryExecute applySub st e
  | .mul e => binaryExecute applyMul st e
  | .div e => binaryExecute applyDiv st e
  | .mod e => binaryExecute applyMod st e
  | .not => executeNot st
  | .s v => executeConditional st v true
  | .r v => executeConditional st v false
  | .jmp l => executeJmp st l
  | .jmpc l => executeJmpc st l
  | .jmpnc l => executeJmpnc st l

/-- The `execute` as actually called by the run loop: every subclass `execute`
is wrapped by `debug_decorator`, which calls `debug_registers` after a
successful execution (and not when the execution raised). -/
def executeCommand (st : ILInterpreter) (c : Command) : Except IlError ILInterpreter :=
  (rawExecute st c).map (fun st1 => { st1 with registers := debug_registers st1.registers })

/-- Python list indexing (negative indices count from the end). -/
def pyListGet (l : List Command) (i : Int) : Option Command :=
  if 0 ≤ i then l.get? i.toNat
  else if 0 ≤ (l.length : Int) + i then l.get? ((l.length : Int) + i).toNat
  else none

/-- Outcome of `run`, keeping the interpreter state: `done` models the
while loop exiting, `failed` models an exception escaping `run` with the
object left in the state it had when the exception was raised, `fuelOut`
means the step budget of the model ran out. -/
inductive RunResult where
  | done (st : ILInterpreter)
  | failed (st : ILInterpreter) (e : IlError)
  | fuelOut (st : ILInterpreter)
deriving DecidableEq, Repr

/-- The interpreter state carried by a `RunResult`. -/
def RunResult.state : RunResult → ILInterpreter
  | .done st => st
  | .failed st _ => st
  | .fuelOut st => st

/-- The `ILInterpreter.run`: `while program_counter < len(program): fetch,
execute, program_counter += 1`, with an explicit fuel bound. -/
def run : Nat → ILInterpreter → RunResult
  | 0, st => RunResult.fuelOut st
  | fuel + 1, st =>
    if st.program_counter < (st.program.length : Int) then
      match pyListGet st.program st.program_counter with
      | none => RunResult.failed st IlError.indexError
      | some command =>
        match executeCommand st command with
        | Except.error e => RunResult.failed st e
        | Except.ok st1 => run fuel { st1 with program_counter := st1.program_counter + 1 }
    else RunResult.done st

example :
    run 3 { initInterpreter with program := [Command.load "5", Command.store "A"] } =
      RunResult.done
        { registers := [("ACC", Value.int 5), ("A", Value.int 5)]
          program := [Command.load "5", Command.store "A"]
          program_counter := 2
          labels := [] } := by decide

/-- Python `str.strip()`: drop whitespace from both ends. -/
def pyStrip (st : String) : String :=
  String.mk (((st.data.dropWhile Char.isWhitespace).reverse.dropWhile Char.isWhitespace).reverse)

/-- Python `line.split()` with no argument: split on whitespace runs,
discarding empty pieces. -/
def pySplitWhitespace (st : String) : List String :=
  ((st.data.splitOnP (fun c => c.isWhitespace)).filter (fun w => !w.isEmpty)).map String.mk

/-- The dispatch: construct the command for a known mnemonic, raise
`ValueError` (here `unknownInstruction`) for an unknown one, and `TypeError`
when the constructor is called with the wrong number of arguments
(one operand everywhere except `NOT`, which takes none). -/
def makeCommand (command : String) (args : List String) : Except IlError Command :=
  let oneArg := fun (mk : String → Command) =>
    match args with
    | [a] => Except.ok (mk a)
    | _ => (Except.error IlError.typeError : Except IlError Command)
  if command = "LD" then oneArg Command.load
  else if command = "ST" then oneArg Command.store
  else if command = "AND" then oneArg Command.and
  else if command = "ANDN" then oneArg Command.andn
  else if command = "OR" then oneArg Command.or
  else if command = "ORN" then oneArg Command.orn
  else if command = "XOR" then oneArg Command.xor
  else if command = "XORN" then oneArg Command.xorn
  else if command = "ADD" then oneArg Command.add
  else if command = "SUB" then oneArg Command.sub
  else if command = "MUL" then oneArg Command.mul
  else if command = "DIV" then oneArg Command.div
  else if command = "MOD" then oneArg Command.mod
  else if command = "NOT" then
    match args with
    | [] => Except.ok Command.not
    | _ => Except.error IlError.typeError
  else if command = "S" then oneArg Command.s
  else if command = "R" then oneArg Command.r
  else if command = "JMP" then oneArg Command.jmp
  else if command = "JMPC" then oneArg Command.jmpc
  else if command = "JMPNC" then oneArg Command.jmpnc
  else Except.error (IlError.unknownInstruction command)

/-- The `ILParser.parse`: split the line on whitespace; `parts[0]` is the
mnemonic, the rest are the constructor arguments. -/
def parseIlLine (line : String) : Except IlError Command :=
  match pySplitWhitespace line with
  | [] => Except.error IlError.indexError
  | command :: args => makeCommand command args

/-- The `line.split(':', 1)`: the text before the first `':'` and the text
after it, or `none` when the line has no colon. -/
def splitColonOnce : List Char → Option (List Char × List Char)
  | [] => none
  | c :: rest =>
    if c = ':' then some ([], rest)
    else
      match splitColonOnce rest with
      | some p => some (c :: p.1, p.2)
      | none => none

/-- One iteration of the `load_program` loop body, on a stripped non-blank
line: peel off a `label:` prefix into the label table (recording the current
instruction count), then parse and append the remaining text if non-empty.
On a parse error the state mutated so far is kept. -/
def loadLine (st : ILInterpreter) (line : String) : ILInterpreter × Option IlError :=
  let p :=
    match splitColonOnce line.data with
    | some q =>
      ({ st with labels := dictSet st.labels (pyStrip (String.mk q.1)) st.program.length },
        pyStrip (String.mk q.2))
    | none => (st, line)
  if p.2 ≠ "" then
    match parseIlLine p.2 with
    | Except.ok c => ({ p.1 with program := p.1.program ++ [c] }, none)
    | Except.error e => (p.1, some e)
  else (p.1, none)

/-- The `load_program` loop over the processed lines: stop at the first
line whose parse raises, keeping everything loaded before it. -/
def loadLines : ILInterpreter → List String → ILInterpreter × Option IlError
  | st, [] => (st, none)
  | st, line :: rest =>
    match loadLine st line with
    | (st1, none) => loadLines st1 rest
    | (st1, some e) => (st1, some e)

/-- The line preprocessing of `load_program`:
`[line.strip() for line in program.split('\n') if line.strip()]`. -/
def pyLines (text : String) : List String :=
  ((text.data.splitOnP (fun c => c = '\n')).map (fun l => pyStrip (String.mk l))).filter
    (fun l => l ≠ "")

/-- The `ILInterpreter.load_program`. -/
def load_program (st : ILInterpreter) (text : String) : ILInterpreter × Option IlError :=
  loadLines st (pyLines text)

example :
    load_program initInterpreter "  LD 5\n\n  Skip: ST A\nEnd:" =
      ({ registers := [("ACC", Value.int 0)]
         program := [Command.load "5", Command.store "A"]
         program_counter := 0
         labels := [("Skip", 1), ("End", 2)] }, none) := by decide

example :
    run 10 (load_program initInterpreter "LD 1\nJMP Skip\nLD 0\nST A\nSkip: LD 1\nST B").1 =
      RunResult.done
        { registers := [("ACC", Value.int 1), ("B", Value.int 1)]
          program := [Command.load "1", Command.jmp "Skip", Command.load "0",
            Command.store "A", Command.load "1", Command.store "B"]
          program_counter := 6
          labels := [("Skip", 4)] } := by decide

/-! ### Basic lemmas about the embedding -/

theorem mask32_nonneg (n : Int) : 0 ≤ mask32 n :=
  Int.emod_nonneg n (by norm_num)

theorem mask32_lt (n : Int) : mask32 n < 4294967296 :=
  Int.emod_lt_of_pos n (by norm_num)

theorem mask32_of_range (n : Int) (h0 : 0 ≤ n) (h1 : n < 4294967296) : mask32 n = n := by
  simpa [mask32] using Int.emod_eq_of_lt h0 h1

theorem dictGet_dictSet_self {α : Type} (d : List (String × α)) (k : String) (v : α) :
    dictGet (dictSet d k v) k = some v := by
  induction d with
  | nil => simp [dictGet, dictSet]
  | cons hd tl ih =>
    by_cases h : hd.1 = k <;> simp [dictGet, dictSet, h, ih]

theorem dictGet_dictSet_other {α : Type} (d : List (String × α)) (k k' : String) (v : α)
    (h : k ≠ k') : dictGet (dictSet d k v) k' = dictGet d k' := by
  induction d with
  | nil => simp [dictGet, dictSet, h]
  | cons hd tl ih =>
    by_cases h1 : hd.1 = k <;> simp [dictGet, dictSet, h1, h, ih]

theorem dictGet_debug_registers (regs : List (String × Value)) (k : String) :
    dictGet (debug_registers regs) k =
      (dictGet regs k).map (fun v => Value.int (mask32 v.toInt)) := by
  induction regs with
  | nil => simp [dictGet, debug_registers]
  | cons hd tl ih =>
    by_cases h : hd.1 = k <;>
      simp_all [dictGet, debug_registers]

/-- Note that `Int.lnot` is Python's `~`: `~x == -x - 1`. -/
theorem lnot_eq_neg_sub_one (x : Int) : Int.lnot x = -x - 1 := by
  cases x with
  | ofNat m => simp [Int.lnot, Int.negSucc_eq]; try ring
  | negSucc m => simp [Int.lnot, Int.negSucc_eq]; try ring

/-! ### C1: DIV/MOD by zero -/

/-- C1: when the evaluated divisor of a `DIV` or `MOD` instruction is zero,
executing the instruction raises `ZeroDivisionError`, the error propagates
out of `run` (the run loop stops with a `failed` outcome carrying it), and
the register table — the whole interpreter state — is exactly the state from
immediately before the failing instruction: no partial mutation occurs. -/
theorem c1_div_mod_by_zero_no_mutation (st : ILInterpreter) (e : String) (v : Value)
    (hacc : dictGet st.registers "ACC" = some v)
    (hdiv : evaluate_expression st e = 0) :
    executeCommand st (Command.div e) = Except.error IlError.zeroDivision ∧
    executeCommand st (Command.mod e) = Except.error IlError.zeroDivision ∧
    ∀ fuel c, (c = Command.div e ∨ c = Command.mod e) →
      st.program_counter < (st.program.length : Int) →
      pyListGet st.program st.program_counter = some c →
      run (fuel + 1) st = RunResult.failed st IlError.zeroDivision := by
  have hz : mask32 (evaluate_expression st e) = 0 := by rw [hdiv]; rfl
  have h1 : executeCommand st (Command.div e) = Except.error IlError.zeroDivision := by
    simp [executeCommand, rawExecute, binaryExecute, applyDiv, getRegister, hacc, hz,
      Except.map, bind, Except.bind]
  have h2 : executeCommand st (Command.mod e) = Except.error IlError.zeroDivision := by
    simp [executeCommand, rawExecute, binaryExecute, applyMod, getRegister, hacc, hz,
      Except.map, bind, Except.bind]
  refine ⟨h1, h2, ?_⟩
  intro fuel c hc hpc hfetch
  rcases hc with hc | hc <;>
    (subst hc; simp [run, hpc, hfetch, h1, h2])

/-- Witness for C1 at the one-instruction program `DIV 0`. -/
theorem c1_witness :
    executeCommand { initInterpreter with program := [Command.div "0"] } (Command.div "0") =
      Except.error IlError.zeroDivision ∧
    run 1 { initInterpreter with program := [Command.div "0"] } =
      RunResult.failed { initInterpreter with program := [Command.div "0"] }
        IlError.zeroDivision :=
  ⟨(c1_div_mod_by_zero_no_mutation _ "0" (Value.int 0) (by decide) (by decide)).1,
   (c1_div_mod_by_zero_no_mutation _ "0" (Value.int 0) (by decide) (by decide)).2.2 0
     (Command.div "0") (Or.inl rfl) (by decide) (by decide)⟩

/-! ### C2 / C9: evaluation of unresolvable operand tokens -/

/-- C2 counterexample: the token `X` is neither a digit string, nor a
`16#` literal, nor a register of the fresh interpreter, yet
`evaluate_expression` succeeds and produces the value `0` (the internal
`ValueError` is caught by the function's own `except` clause), and the
instruction `LD X` executes without error. -/
theorem c2_counterexample :
    pyIsDigit "X" = false ∧ startsWith16 "X" = false ∧
    dictGet initInterpreter.registers "X" = none ∧
    evaluate_expression initInterpreter "X" = 0 ∧
    executeCommand initInterpreter (Command.load "X") =
      Except.ok initInterpreter :=
  ⟨by decide, by decide, by decide, by decide, rfl⟩

/-- C2 amended: for every operand token that is neither a digit string, nor
a `16#` literal, nor a currently-present register, `evaluate_expression`
catches its internal `UnknownExpression` `ValueError`, logs it, and returns
the substitute value `0`; no error reaches the instruction. -/
theorem c2_amended_eval_substitutes_zero (st : ILInterpreter) (e : String)
    (h1 : pyIsDigit e = false) (h2 : startsWith16 e = false)
    (h3 : dictGet st.registers e = none) :
    evaluate_expression st e = 0 := by
  simp [evaluate_expression, h1, h2, h3]

/-- Witness for the amended C2 at the token `X`. -/
theorem c2_amended_witness : evaluate_expression initInterpreter "X" = 0 :=
  c2_amended_eval_substitutes_zero initInterpreter "X" (by decide) (by decide) (by decide)

/-- A token starting with `16#` contains `#`, so it is not a digit string. -/
theorem startsWith16_not_digit (e : String) (h : startsWith16 e = true) :
    pyIsDigit e = false := by
  unfold startsWith16 at h
  split at h
  case h_1 t heq => simp [pyIsDigit, heq]
  case h_2 => exact absurd h (by simp)

/-- The only error a `getRegister` followed by a pure continuation can
raise is the `KeyError` of the lookup. -/
theorem getRegister_bind_ok_error {α : Type} (st : ILInterpreter) (k : String)
    (f : Value → α) (err : IlError)
    (h : (do
      let acc ← getRegister st k
      Except.ok (f acc) : Except IlError α) = Except.error err) :
    err = IlError.keyMissing k := by
  cases hg : dictGet st.registers k <;> simp_all [getRegister, bind, Except.bind]

/-- The `DIV`/`MOD` style bodies: lookup then a zero test. -/
theorem getRegister_bind_zero_test_error {α : Type} (st : ILInterpreter) (k : String)
    (value : Int) (f : Value → α) (err : IlError)
    (h : (do
      let acc ← getRegister st k
      if value = 0 then Except.error IlError.zeroDivision
      else Except.ok (f acc) : Except IlError α) = Except.error err) :
    err = IlError.zeroDivision ∨ err = IlError.keyMissing k := by
  cases hg : dictGet st.registers k <;> by_cases hv : value = 0 <;>
    simp_all [getRegister, bind, Except.bind]

theorem executeConditional_error (st : ILInterpreter) (v : String) (b : Bool)
    (err : IlError) (h : executeConditional st v b = Except.error err) :
    err = IlError.keyMissing "ACC" := by
  unfold executeConditional at h
  cases hg : dictGet st.registers "ACC" with
  | none => simp_all [getRegister, bind, Except.bind]
  | some acc => cases ht : acc.truthy <;> simp_all [getRegister, bind, Except.bind]

theorem executeJmp_error (st : ILInterpreter) (l : String) (err : IlError)
    (h : executeJmp st l = Except.error err) : err = IlError.keyMissing l := by
  unfold executeJmp at h
  cases hg : dictGet st.labels l <;> simp_all [getLabel, bind, Except.bind]

theorem executeJmpc_error (st : ILInterpreter) (l : String) (err : IlError)
    (h : executeJmpc st l = Except.error err) :
    err = IlError.keyMissing "ACC" ∨ err = IlError.keyMissing l := by
  unfold executeJmpc at h
  cases hg : dictGet st.registers "ACC" with
  | none => simp_all [getRegister, bind, Except.bind]
  | some acc =>
    cases ht : acc.truthy with
    | false => simp_all [getRegister, bind, Except.bind]
    | true =>
      cases hl : dictGet st.labels l <;>
        simp_all [getRegister, getLabel, bind, Except.bind]

theorem executeJmpnc_error (st : ILInterpreter) (l : String) (err : IlError)
    (h : executeJmpnc st l = Except.error err) :
    err = IlError.keyMissing "ACC" ∨ err = IlError.keyMissing l := by
  unfold executeJmpnc at h
  cases hg : dictGet st.registers "ACC" with
  | none => simp_all [getRegister, bind, Except.bind]
  | some acc =>
    cases ht : acc.truthy with
    | true => simp_all [getRegister, bind, Except.bind]
    | false =>
      cases hl : dictGet st.labels l <;>
        simp_all [getRegister, getLabel, bind, Except.bind]

/-- Errors of `BinaryCommand.execute` come from the subclass
`apply_operation` or from the final `ACC` re-mask lookup. -/
theorem binaryExecute_error_kinds
    (applyOp : ILInterpreter → Int → Except IlError ILInterpreter)
    (hop : ∀ st1 v err, applyOp st1 v = Except.error err →
      err = IlError.zeroDivision ∨ ∃ k, err = IlError.keyMissing k)
    (st : ILInterpreter) (e : String) (err : IlError)
    (h : binaryExecute applyOp st e = Except.error err) :
    err = IlError.zeroDivision ∨ ∃ k, err = IlError.keyMissing k := by
  unfold binaryExecute at h
  simp only [bind, Except.bind] at h
  cases h1 : applyOp st (mask32 (evaluate_expression st e)) with
  | error e1 =>
    rw [h1] at h
    simp only [Except.error.injEq] at h
    exact hop _ _ _ (h ▸ h1)
  | ok st1 =>
    rw [h1] at h
    simp only [] at h
    cases h2 : getRegister st1 "ACC" with
    | error e2 =>
      rw [h2] at h
      simp only [Except.error.injEq] at h
      refine Or.inr ⟨"ACC", ?_⟩
      unfold getRegister at h2
      cases hg : dictGet st1.registers "ACC" <;> simp_all
    | ok acc => rw [h2] at h; simp at h

theorem applyAnd_error (st : ILInterpreter) (v : Int) (err : IlError)
    (h : applyAnd st v = Except.error err) :
    err = IlError.zeroDivision ∨ ∃ k, err = IlError.keyMissing k := by
  unfold applyAnd at h
  exact Or.inr ⟨"ACC", getRegister_bind_ok_error st "ACC" _ err h⟩

theorem applyOr_error (st : ILInterpreter) (v : Int) (err : IlError)
    (h : applyOr st v = Except.error err) :
    err = IlError.zeroDivision ∨ ∃ k, err = IlError.keyMissing k := by
  unfold applyOr at h
  exact Or.inr ⟨"ACC", getRegister_bind_ok_error st "ACC" _ err h⟩

theorem applyOrn_error (st : ILInterpreter) (v : Int) (err : IlError)
    (h : applyOrn st v = Except.error err) :
    err = IlError.zeroDivision ∨ ∃ k, err = IlError.keyMissing k := by
  unfold applyOrn at h
  exact Or.inr ⟨"ACC", getRegister_bind_ok_error st "ACC" _ err h⟩

theorem applyXor_error (st : ILInterpreter) (v : Int) (err : IlError)
    (h : applyXor st v = Except.error err) :
    err = IlError.zeroDivision ∨ ∃ k, err = IlError.keyMissing k := by
  unfold applyXor at h
  exact Or.inr ⟨"ACC", getRegister_bind_ok_error st "ACC" _ err h⟩

theorem applyXorn_error (st : ILInterpreter) (v : Int) (err : IlError)
    (h : applyXorn st v = Except.error err) :
    err = IlError.zeroDivision ∨ ∃ k, err = IlError.keyMissing k := by
  unfold applyXorn at h
  exact Or.inr ⟨"ACC", getRegister_bind_ok_error st "ACC" _ err h⟩

theorem applyAdd_error (st : ILInterpreter) (v : Int) (err : IlError)
    (h : applyAdd st v = Except.error err) :
    err = IlError.zeroDivision ∨ ∃ k, err = IlError.keyMissing k := by
  unfold applyAdd at h
  exact Or.inr ⟨"ACC", getRegister_bind_ok_error st "ACC" _ err h⟩

theorem applySub_error (st : ILInterpreter) (v : Int) (err : IlError)
    (h : applySub st v = Except.error err) :
    err = IlError.zeroDivision ∨ ∃ k, err = IlError.keyMissing k := by
  unfold applySub at h
  exact Or.inr ⟨"ACC", getRegister_bind_ok_error st "ACC" _ err h⟩

theorem applyMul_error (st : ILInterpreter) (v : Int) (err : IlError)
    (h : applyMul st v = Except.error err) :
    err = IlError.zeroDivision ∨ ∃ k, err = IlError.keyMissing k := by
  unfold applyMul at h
  exact Or.inr ⟨"ACC", getRegister_bind_ok_error st "ACC" _ err h⟩

theorem applyAndn_error (st : ILInterpreter) (v : Int) (err : IlError)
    (h : applyAndn st v = Except.error err) :
    err = IlError.zeroDivision ∨ ∃ k, err = IlError.keyMissing k := by
  unfold applyAndn at h
  exact Or.inr ⟨"ACC", getRegister_bind_ok_error st "ACC" _ err h⟩

theorem applyDiv_error (st : ILInterpreter) (v : Int) (err : IlError)
    (h : applyDiv st v = Except.error err) :
    err = IlError.zeroDivision ∨ ∃ k, err = IlError.keyMissing k := by
  unfold applyDiv at h
  rcases getRegister_bind_zero_test_error st "ACC" v _ err h with h2 | h2
  · exact Or.inl h2
  · exact Or.inr ⟨"ACC", h2⟩

theorem applyMod_error (st : ILInterpreter) (v : Int) (err : IlError)
    (h : applyMod st v = Except.error err) :
    err = IlError.zeroDivision ∨ ∃ k, err = IlError.keyMissing k := by
  unfold applyMod at h
  rcases getRegister_bind_zero_test_error st "ACC" v _ err h with h2 | h2
  · exact Or.inl h2
  · exact Or.inr ⟨"ACC", h2⟩

/-- C9: `evaluate_expression` is total and never propagates an error: a
token that is neither a literal nor a known register evaluates to `0`, a
`16#` token whose remainder `int(_, 16)` rejects evaluates to `0`, `LD`
of any token always succeeds, and no instruction can fail with an
expression-evaluation error — the only runtime errors any instruction can
raise are `ZeroDivisionError` and `KeyError`. -/
theorem c9_eval_total_never_raises (st : ILInterpreter) (e : String) :
    (pyIsDigit e = false → startsWith16 e = false → dictGet st.registers e = none →
      evaluate_expression st e = 0) ∧
    (startsWith16 e = true → pyIntHex (afterPrefix16 e) = none →
      evaluate_expression st e = 0) ∧
    (∃ st1, executeCommand st (Command.load e) = Except.ok st1) ∧
    (∀ c err, executeCommand st c = Except.error err →
      err = IlError.zeroDivision ∨ ∃ k, err = IlError.keyMissing k) := by
  refine ⟨?_, ?_, ?_, ?_⟩
  · intro h1 h2 h3
    simp [evaluate_expression, h1, h2, h3]
  · intro h1 h2
    simp [evaluate_expression, startsWith16_not_digit e h1, h1, h2]
  · exact ⟨_, rfl⟩
  · intro c err h
    have h' : rawExecute st c = Except.error err := by
      cases hr : rawExecute st c <;> simp_all [executeCommand, Except.map]
    clear h
    cases c with
    | load e1 => simp [rawExecute, executeLoad] at h'
    | store v1 =>
      unfold rawExecute executeStore at h'
      exact Or.inr ⟨"ACC", getRegister_bind_ok_error st "ACC" _ err h'⟩
    | and e1 => exact binaryExecute_error_kinds applyAnd applyAnd_error st e1 err h'
    | andn e1 =>
      unfold rawExecute notBinaryExecute at h'
      exact applyAndn_error st _ err h'
    | or e1 => exact binaryExecute_error_kinds applyOr applyOr_error st e1 err h'
    | orn e1 => exact binaryExecute_error_kinds applyOrn applyOrn_error st e1 err h'
    | xor e1 => exact binaryExecute_error_kinds applyXor applyXor_error st e1 err h'
    | xorn e1 => exact binaryExecute_error_kinds applyXorn applyXorn_error st e1 err h'
    | add e1 => exact binaryExecute_error_kinds applyAdd applyAdd_error st e1 err h'
    | sub e1 => exact binaryExecute_error_kinds applySub applySub_error st e1 err h'
    | mul e1 => exact binaryExecute_error_kinds applyMul applyMul_error st e1 err h'
    | div e1 => exact binaryExecute_error_kinds applyDiv applyDiv_error st e1 err h'
    | mod e1 => exact binaryExecute_error_kinds applyMod applyMod_error st e1 err h'
    | not =>
      unfold rawExecute executeNot at h'
      exact Or.inr ⟨"ACC", getRegister_bind_ok_error st "ACC" _ err h'⟩
    | s v1 => exact Or.inr ⟨"ACC", executeConditional_error st v1 true err h'⟩
    | r v1 => exact Or.inr ⟨"ACC", executeConditional_error st v1 false err h'⟩
    | jmp l => exact Or.inr ⟨l, executeJmp_error st l err h'⟩
    | jmpc l =>
      rcases executeJmpc_error st l err h' with h2 | h2
      · exact Or.inr ⟨"ACC", h2⟩
      · exact Or.inr ⟨l, h2⟩
    | jmpnc l =>
      rcases executeJmpnc_error st l err h' with h2 | h2
      · exact Or.inr ⟨"ACC", h2⟩
      · exact Or.inr ⟨l, h2⟩

/-- Witness for C9 at the malformed hex token `16#GZ`. -/
theorem c9_witness :
    evaluate_expression initInterpreter "16#GZ" = 0 ∧
    evaluate_expression initInterpreter "X" = 0 ∧
    (∃ st1, executeCommand initInterpreter (Command.load "16#GZ") = Except.ok st1) :=
  ⟨(c9_eval_total_never_raises initInterpreter "16#GZ").2.1 (by decide) (by decide),
   (c9_eval_total_never_raises initInterpreter "X").1 (by decide) (by decide) (by decide),
   (c9_eval_total_never_raises initInterpreter "16#GZ").2.2.1⟩

/-! ### C6: ADD wraps modulo 2^32 -/

theorem mask32_idem (n : Int) : mask32 (mask32 n) = mask32 n :=
  mask32_of_range (mask32 n) (mask32_nonneg n) (mask32_lt n)

/-- The `evaluate_expression` always produces a 32-bit value. -/
theorem evaluate_expression_range (st : ILInterpreter) (e : String) :
    0 ≤ evaluate_expression st e ∧ evaluate_expression st e < 4294967296 := by
  unfold evaluate_expression
  repeat' split
  all_goals first
    | exact ⟨mask32_nonneg _, mask32_lt _⟩
    | norm_num

/-- The `evaluate_expression` looks only at the register table. -/
theorem evaluate_expression_congr (st st' : ILInterpreter) (e : String)
    (h : st.registers = st'.registers) :
    evaluate_expression st e = evaluate_expression st' e := by
  unfold evaluate_expression
  rw [h]

/-- C6: `ADD` wraps modulo `2^32`: from any state whose `ACC` holds the
integer `a`, executing `ADD e` succeeds and leaves
`ACC = (a + operand) mod 2^32` where the operand is the masked evaluation of
`e`; in particular the full program `LD 16#FFFFFFFF; ADD 1; ST A` loads,
runs to completion and leaves `A = 0`. -/
theorem c6_add_wraps (st : ILInterpreter) (e : String) (a : Int)
    (hacc : dictGet st.registers "ACC" = some (Value.int a)) :
    (∃ st1, executeCommand st (Command.add e) = Except.ok st1 ∧
      dictGet st1.registers "ACC" =
        some (Value.int ((a + mask32 (evaluate_expression st e)) % 4294967296))) ∧
    run 4 (load_program initInterpreter "LD 16#FFFFFFFF\nADD 1\nST A").1 =
      RunResult.done
        { registers := [("ACC", Value.int 0), ("A", Value.int 0)]
          program := [Command.load "16#FFFFFFFF", Command.add "1", Command.store "A"]
          program_counter := 3
          labels := [] } := by
  constructor
  · have hstep : executeCommand st (Command.add e) = Except.ok
        { st with registers := debug_registers (dictSet
            (dictSet st.registers "ACC"
              (Value.int (mask32 (a + mask32 (evaluate_expression st e)))))
            "ACC"
            (Value.int (mask32 (mask32 (a + mask32 (evaluate_expression st e)))))) } := by
      simp [executeCommand, rawExecute, binaryExecute, applyAdd, getRegister, hacc,
        bind, Except.bind, Except.map, setRegister, dictGet_dictSet_self, Value.toInt]
    refine ⟨_, hstep, ?_⟩
    simp [dictGet_debug_registers, dictGet_dictSet_self, Value.toInt, mask32_idem]
    rfl
  · decide

/-- Witness for C6 at `ACC = 4294967295`, operand `1`. -/
theorem c6_witness :
    (∃ st1,
      executeCommand { initInterpreter with registers := [("ACC", Value.int 4294967295)] }
          (Command.add "1") = Except.ok st1 ∧
      dictGet st1.registers "ACC" =
        some (Value.int ((4294967295 +
          mask32 (evaluate_expression
            { initInterpreter with registers := [("ACC", Value.int 4294967295)] } "1")) %
              4294967296))) :=
  (c6_add_wraps { initInterpreter with registers := [("ACC", Value.int 4294967295)] }
    "1" 4294967295 (by decide)).1

/-! ### C7: NOT is an involution on 32-bit values -/

/-- Masked complement applied twice restores a 32-bit value. -/
theorem mask32_lnot_lnot (v : Int) (h0 : 0 ≤ v) (h1 : v < 4294967296) :
    mask32 (Int.lnot (mask32 (Int.lnot v))) = v := by
  simp only [lnot_eq_neg_sub_one, mask32]
  omega

/-- C7: for every token `e` evaluating to the 32-bit value `v` in the fresh
interpreter, the program `LD e; NOT; NOT; ST A` terminates with both `ACC`
and `A` equal to `v`: the second `NOT` restores the masked complement to the
prior masked accumulator value. -/
theorem c7_not_involution (e : String) (v : Int)
    (heval : evaluate_expression initInterpreter e = v) :
    run 5 { initInterpreter with program :=
        [Command.load e, Command.not, Command.not, Command.store "A"] } =
      RunResult.done
        { registers := [("ACC", Value.int (mask32 v)), ("A", Value.int (mask32 v))]
          program := [Command.load e, Command.not, Command.not, Command.store "A"]
          program_counter := 4
          labels := [] } := by
  obtain ⟨h0, h1⟩ := evaluate_expression_range initInterpreter e
  rw [heval] at h0 h1
  have hm : mask32 v = v := mask32_of_range v h0 h1
  have hnn : mask32 (Int.lnot (mask32 (Int.lnot v))) = v := mask32_lnot_lnot v h0 h1
  have hv : evaluate_expression
      { registers := [("ACC", Value.int 0)]
        program := [Command.load e, Command.not, Command.not, Command.store "A"]
        program_counter := 0
        labels := [] } e = v := by
    rw [evaluate_expression_congr
      { registers := [("ACC", Value.int 0)]
        program := [Command.load e, Command.not, Command.not, Command.store "A"]
        program_counter := 0
        labels := [] } initInterpreter e rfl, heval]
  simp [run, pyListGet, executeCommand, rawExecute, executeLoad, executeNot,
    executeStore, getRegister, setRegister, debug_registers, dictGet, dictSet,
    Except.map, bind, Except.bind, Value.toInt, initInterpreter, hv, hm, hnn,
    mask32_idem]

/-- Witness for C7 at the decimal token `5`. -/
theorem c7_witness :
    run 5 { initInterpreter with program :=
        [Command.load "5", Command.not, Command.not, Command.store "A"] } =
      RunResult.done
        { registers := [("ACC", Value.int (mask32 5)), ("A", Value.int (mask32 5))]
          program := [Command.load "5", Command.not, Command.not, Command.store "A"]
          program_counter := 4
          labels := [] } :=
  c7_not_involution "5" 5 (by decide)

/-! ### C8: S/R are no-ops when ACC is falsy -/

/-- C8: when `ACC` is falsy, `S var` and `R var` change nothing: from any
state whose registers are already in the normal form `debug_registers`
produces (as every state reached by the run loop is), both instructions
return the state unchanged, so a variable absent before stays absent; in
particular the program `LD 0; S X` terminates with `X` absent. -/
theorem c8_s_r_noop_when_falsy (st : ILInterpreter) (x : String) (a : Value)
    (hacc : dictGet st.registers "ACC" = some a)
    (hfalsy : a.truthy = false)
    (hnorm : debug_registers st.registers = st.registers) :
    executeCommand st (Command.s x) = Except.ok st ∧
    executeCommand st (Command.r x) = Except.ok st ∧
    (∀ st1, executeCommand st (Command.s x) = Except.ok st1 →
      dictGet st.registers x = none → dictGet st1.registers x = none) ∧
    run 3 (load_program initInterpreter "LD 0\nS X").1 =
      RunResult.done
        { registers := [("ACC", Value.int 0)]
          program := [Command.load "0", Command.s "X"]
          program_counter := 2
          labels := [] } := by
  have hs : executeCommand st (Command.s x) = Except.ok st := by
    simp [executeCommand, rawExecute, executeConditional, getRegister, hacc, hfalsy,
      bind, Except.bind, Except.map, hnorm]
  have hr : executeCommand st (Command.r x) = Except.ok st := by
    simp [executeCommand, rawExecute, executeConditional, getRegister, hacc, hfalsy,
      bind, Except.bind, Except.map, hnorm]
  refine ⟨hs, hr, ?_, by decide⟩
  intro st1 h1 habs
  rw [hs] at h1
  cases h1
  exact habs

/-- Witness for C8 at the fresh interpreter (`ACC = 0`). -/
theorem c8_witness :
    executeCommand initInterpreter (Command.s "X") = Except.ok initInterpreter ∧
    executeCommand initInterpreter (Command.r "X") = Except.ok initInterpreter :=
  ⟨(c8_s_r_noop_when_falsy initInterpreter "X" (Value.int 0) (by decide) (by decide)
      (by decide)).1,
   (c8_s_r_noop_when_falsy initInterpreter "X" (Value.int 0) (by decide) (by decide)
      (by decide)).2.1⟩

/-! ### C3: jump instructions target `label_index - 1` -/

/-- C3: with label `L` bound to index `idx`, `JMP L` sets the program
counter to `idx - 1` (touching nothing else but the debug re-mask of the
registers); `JMPC` does so exactly when `ACC` is truthy and `JMPNC` exactly
when `ACC` is falsy; and after the run loop's unconditional post-increment
the next instruction fetched is exactly the one at index `idx`. -/
theorem c3_jump_targets (st : ILInterpreter) (L : String) (idx : Nat) (a : Value)
    (hL : dictGet st.labels L = some idx)
    (hacc : dictGet st.registers "ACC" = some a) :
    (executeCommand st (Command.jmp L) =
      Except.ok { st with registers := debug_registers st.registers
                          program_counter := (idx : Int) - 1 }) ∧
    (a.truthy = true → executeCommand st (Command.jmpc L) =
      Except.ok { st with registers := debug_registers st.registers
                          program_counter := (idx : Int) - 1 }) ∧
    (a.truthy = false → executeCommand st (Command.jmpc L) =
      Except.ok { st with registers := debug_registers st.registers }) ∧
    (a.truthy = false → executeCommand st (Command.jmpnc L) =
      Except.ok { st with registers := debug_registers st.registers
                          program_counter := (idx : Int) - 1 }) ∧
    (a.truthy = true → executeCommand st (Command.jmpnc L) =
      Except.ok { st with registers := debug_registers st.registers }) ∧
    (∀ fuel, st.program_counter < (st.program.length : Int) →
      pyListGet st.program st.program_counter = some (Command.jmp L) →
      run (fuel + 1) st =
        run fuel { st with registers := debug_registers st.registers
                           program_counter := (idx : Int) }) := by
  have hjmp : executeCommand st (Command.jmp L) =
      Except.ok { st with registers := debug_registers st.registers
                          program_counter := (idx : Int) - 1 } := by
    simp [executeCommand, rawExecute, executeJmp, getLabel, hL, bind, Except.bind,
      Except.map]
  refine ⟨hjmp, ?_, ?_, ?_, ?_, ?_⟩
  · intro ht
    simp [executeCommand, rawExecute, executeJmpc, getRegister, getLabel, hacc, hL, ht,
      bind, Except.bind, Except.map]
  · intro ht
    simp [executeCommand, rawExecute, executeJmpc, getRegister, getLabel, hacc, hL, ht,
      bind, Except.bind, Except.map]
  · intro ht
    simp [executeCommand, rawExecute, executeJmpnc, getRegister, getLabel, hacc, hL, ht,
      bind, Except.bind, Except.map]
  · intro ht
    simp [executeCommand, rawExecute, executeJmpnc, getRegister, getLabel, hacc, hL, ht,
      bind, Except.bind, Except.map]
  · intro fuel hpc hfetch
    conv_lhs => rw [run]
    simp only [hpc, if_true, hfetch, hjmp]
    have : (idx : Int) - 1 + 1 = (idx : Int) := by omega
    rw [this]

/-- Witness for C3 at a two-instruction program with label index 0. -/
theorem c3_witness :
    executeCommand
        { initInterpreter with program := [Command.jmp "L"], labels := [("L", 0)] }
        (Command.jmp "L") =
      Except.ok { registers := [("ACC", Value.int 0)]
                  program := [Command.jmp "L"]
                  program_counter := -1
                  labels := [("L", 0)] } :=
  (c3_jump_targets
    { initInterpreter with program := [Command.jmp "L"], labels := [("L", 0)] }
    "L" 0 (Value.int 0) (by decide) (by decide)).1

/-! ### C4: the ACC invariant -/

/-- The accumulator invariant of §3 of the spec: `ACC` is present and holds
an integer masked to 32 bits. -/
def AccInvariant (st : ILInterpreter) : Prop :=
  ∃ n : Int, dictGet st.registers "ACC" = some (Value.int n) ∧ 0 ≤ n ∧ n < 4294967296

theorem dictGet_isSome_dictSet {α : Type} (d : List (String × α)) (k k' : String) (v : α)
    (h : dictGet d k' ≠ none) : dictGet (dictSet d k v) k' ≠ none := by
  by_cases hk : k = k'
  · subst hk
    simp [dictGet_dictSet_self]
  · rw [dictGet_dictSet_other d k k' v hk]
    exact h

/-- Decompose a successful `getRegister`-then-pure computation. -/
theorem getRegister_bind_ok_ok {α : Type} (st : ILInterpreter) (k : String)
    (f : Value → α) (res : α)
    (h : (do
      let acc ← getRegister st k
      Except.ok (f acc) : Except IlError α) = Except.ok res) :
    ∃ acc, getRegister st k = Except.ok acc ∧ res = f acc := by
  cases hg : dictGet st.registers k <;>
    simp_all [getRegister, bind, Except.bind]

/-- Decompose a successful `BinaryCommand.execute`: the subclass operation
succeeded, the re-mask lookup succeeded, and the final state writes the
re-masked accumulator. -/
theorem binaryExecute_ok (applyOp : ILInterpreter → Int → Except IlError ILInterpreter)
    (st : ILInterpreter) (e : String) (st1 : ILInterpreter)
    (h : binaryExecute applyOp st e = Except.ok st1) :
    ∃ st2 acc, applyOp st (mask32 (evaluate_expression st e)) = Except.ok st2 ∧
      getRegister st2 "ACC" = Except.ok acc ∧
      st1 = setRegister st2 "ACC" (Value.int (mask32 acc.toInt)) := by
  unfold binaryExecute at h
  simp only [bind, Except.bind] at h
  cases h1 : applyOp st (mask32 (evaluate_expression st e)) with
  | error e1 => rw [h1] at h; simp at h
  | ok st2 =>
    rw [h1] at h
    simp only [] at h
    cases h2 : getRegister st2 "ACC" with
    | error e2 => rw [h2] at h; simp at h
    | ok acc =>
      rw [h2] at h
      simp only [Except.ok.injEq] at h
      exact ⟨st2, acc, rfl, h2, h.symm⟩

/-- Every successful raw execution keeps `ACC` in the register table. -/
theorem rawExecute_acc_present (st : ILInterpreter) (c : Command) (st1 : ILInterpreter)
    (hacc : dictGet st.registers "ACC" ≠ none)
    (h : rawExecute st c = Except.ok st1) :
    dictGet st1.registers "ACC" ≠ none := by
  cases c with
  | load e1 =>
    simp only [rawExecute, Except.ok.injEq] at h
    subst h
    simp [executeLoad, setRegister, dictGet_dictSet_self]
  | store v1 =>
    unfold rawExecute executeStore at h
    obtain ⟨acc, hg, hst⟩ := getRegister_bind_ok_ok st "ACC" _ st1 h
    subst hst
    exact dictGet_isSome_dictSet _ _ _ _ hacc
  | and e1 =>
    obtain ⟨st2, acc, _, _, hst⟩ := binaryExecute_ok applyAnd st e1 st1 h
    subst hst
    simp [setRegister, dictGet_dictSet_self]
  | andn e1 =>
    unfold rawExecute notBinaryExecute applyAndn at h
    obtain ⟨acc, hg, hst⟩ := getRegister_bind_ok_ok st "ACC" _ st1 h
    subst hst
    simp [setRegister, dictGet_dictSet_self]
  | or e1 =>
    obtain ⟨st2, acc, _, _, hst⟩ := binaryExecute_ok applyOr st e1 st1 h
    subst hst
    simp [setRegister, dictGet_dictSet_self]
  | orn e1 =>
    obtain ⟨st2, acc, _, _, hst⟩ := binaryExecute_ok applyOrn st e1 st1 h
    subst hst
    simp [setRegister, dictGet_dictSet_self]
  | xor e1 =>
    obtain ⟨st2, acc, _, _, hst⟩ := binaryExecute_ok applyXor st e1 st1 h
    subst hst
    simp [setRegister, dictGet_dictSet_self]
  | xorn e1 =>
    obtain ⟨st2, acc, _, _, hst⟩ := binaryExecute_ok applyXorn st e1 st1 h
    subst hst
    simp [setRegister, dictGet_dictSet_self]
  | add e1 =>
    obtain ⟨st2, acc, _, _, hst⟩ := binaryExecute_ok applyAdd st e1 st1 h
    subst hst
    simp [setRegister, dictGet_dictSet_self]
  | sub e1 =>
    obtain ⟨st2, acc, _, _, hst⟩ := binaryExecute_ok applySub st e1 st1 h
    subst hst
    simp [setRegister, dictGet_dictSet_self]
  | mul e1 =>
    obtain ⟨st2, acc, _, _, hst⟩ := binaryExecute_ok applyMul st e1 st1 h
    subst hst
    simp [setRegister, dictGet_dictSet_self]
  | div e1 =>
    obtain ⟨st2, acc, _, _, hst⟩ := binaryExecute_ok applyDiv st e1 st1 h
    subst hst
    simp [setRegister, dictGet_dictSet_self]
  | mod e1 =>
    obtain ⟨st2, acc, _, _, hst⟩ := binaryExecute_ok applyMod st e1 st1 h
    subst hst
    simp [setRegister, dictGet_dictSet_self]
  | not =>
    unfold rawExecute executeNot at h
    obtain ⟨acc, hg, hst⟩ := getRegister_bind_ok_ok st "ACC" _ st1 h
    subst hst
    simp [setRegister, dictGet_dictSet_self]
  | s v1 =>
    unfold rawExecute executeConditional at h
    simp only [bind, Except.bind] at h
    cases hg : getRegister st "ACC" with
    | error e2 => rw [hg] at h; simp at h
    | ok acc =>
      rw [hg] at h
      cases ht : acc.truthy <;> simp [ht] at h <;> rw [← h]
      · exact hacc
      · exact dictGet_isSome_dictSet _ _ _ _ hacc
  | r v1 =>
    unfold rawExecute executeConditional at h
    simp only [bind, Except.bind] at h
    cases hg : getRegister st "ACC" with
    | error e2 => rw [hg] at h; simp at h
    | ok acc =>
      rw [hg] at h
      cases ht : acc.truthy <;> simp [ht] at h <;> rw [← h]
      · exact hacc
      · exact dictGet_isSome_dictSet _ _ _ _ hacc
  | jmp l =>
    unfold rawExecute executeJmp at h
    simp only [bind, Except.bind] at h
    cases hl : getLabel st l with
    | error e2 => rw [hl] at h; simp at h
    | ok idx =>
      rw [hl] at h
      simp only [Except.ok.injEq] at h
      rw [← h]
      exact hacc
  | jmpc l =>
    unfold rawExecute executeJmpc at h
    simp only [bind, Except.bind] at h
    cases hg : getRegister st "ACC" with
    | error e2 => rw [hg] at h; simp at h
    | ok acc =>
      rw [hg] at h
      cases ht : acc.truthy with
      | false =>
        simp [ht] at h
        rw [← h]
        exact hacc
      | true =>
        simp only [ht, if_true] at h
        cases hl : getLabel st l with
        | error e2 => rw [hl] at h; simp at h
        | ok idx =>
          rw [hl] at h
          simp only [bind, Except.bind, Except.ok.injEq] at h
          rw [← h]
          exact hacc
  | jmpnc l =>
    unfold rawExecute executeJmpnc at h
    simp only [bind, Except.bind] at h
    cases hg : getRegister st "ACC" with
    | error e2 => rw [hg] at h; simp at h
    | ok acc =>
      rw [hg] at h
      cases ht : acc.truthy with
      | true =>
        simp [ht] at h
        rw [← h]
        exact hacc
      | false =>
        simp only [ht, Bool.false_eq_true, if_false] at h
        cases hl : getLabel st l with
        | error e2 => rw [hl] at h; simp at h
        | ok idx =>
          rw [hl] at h
          simp only [bind, Except.bind, Except.ok.injEq] at h
          rw [← h]
          exact hacc

/-- After `debug_registers`, a present `ACC` holds a masked integer. -/
theorem accInvariant_of_debug (st1 : ILInterpreter)
    (h : dictGet st1.registers "ACC" ≠ none) :
    AccInvariant { st1 with registers := debug_registers st1.registers } := by
  cases hg : dictGet st1.registers "ACC" with
  | none => exact absurd hg h
  | some v =>
    exact ⟨mask32 v.toInt, by simp [dictGet_debug_registers, hg],
      mask32_nonneg _, mask32_lt _⟩

/-- Decompose a successful decorated execution. -/
theorem executeCommand_ok (st : ILInterpreter) (c : Command) (st1 : ILInterpreter)
    (h : executeCommand st c = Except.ok st1) :
    ∃ st2, rawExecute st c = Except.ok st2 ∧
      st1 = { st2 with registers := debug_registers st2.registers } := by
  unfold executeCommand at h
  cases hr : rawExecute st c <;> simp_all [Except.map]

/-- C4: the accumulator invariant — `ACC` exists and holds an integer in
`[0, 2^32)` — holds of the initial state, is preserved by every
successfully executed instruction (of every kind, `ANDN`, `XOR`, `MUL` and
`SUB` included), and therefore holds of the state in which any `run`
finishes, however it finishes. -/
theorem c4_acc_always_masked_int :
    AccInvariant initInterpreter ∧
    (∀ st c st1, dictGet st.registers "ACC" ≠ none →
      executeCommand st c = Except.ok st1 → AccInvariant st1) ∧
    (∀ fuel st, AccInvariant st → AccInvariant (run fuel st).state) := by
  have hpres : ∀ st c st1, dictGet st.registers "ACC" ≠ none →
      executeCommand st c = Except.ok st1 → AccInvariant st1 := by
    intro st c st1 hacc h
    obtain ⟨st2, hraw, hst⟩ := executeCommand_ok st c st1 h
    subst hst
    exact accInvariant_of_debug st2 (rawExecute_acc_present st c st2 hacc hraw)
  refine ⟨⟨0, by decide, by decide, by decide⟩, hpres, ?_⟩
  intro fuel
  induction fuel with
  | zero =>
    intro st h
    exact h
  | succ n ih =>
    intro st h
    rw [run]
    by_cases hpc : st.program_counter < (st.program.length : Int)
    · simp only [hpc, if_true]
      cases hfetch : pyListGet st.program st.program_counter with
      | none => simp only [RunResult.state]; exact h
      | some cmd =>
        cases hex : executeCommand st cmd with
        | error e => simp only [hex, RunResult.state]; exact h
        | ok st1 =>
          simp only [hex]
          apply ih
          obtain ⟨n1, hn1, hr1, hr2⟩ :=
            hpres st cmd st1 (by obtain ⟨n0, hn0, _, _⟩ := h; simp [hn0]) hex
          exact ⟨n1, hn1, hr1, hr2⟩
    · simp only [hpc, if_false]
      exact h

/-- Witness for C4: the invariant after running a wrapping program. -/
theorem c4_witness :
    AccInvariant (run 3 { initInterpreter with program :=
      [Command.load "16#FFFFFFFF", Command.add "1"] }).state :=
  c4_acc_always_masked_int.2.2 3
    { initInterpreter with program := [Command.load "16#FFFFFFFF", Command.add "1"] }
    ⟨0, by decide, by decide, by decide⟩

/-! ### C5: failed loads keep partial program state -/

/-- The closed dispatch table's keys. -/
def mnemonics : List String :=
  ["LD", "ST", "AND", "ANDN", "OR", "ORN", "XOR", "XORN", "ADD", "SUB", "MUL",
   "DIV", "MOD", "NOT", "S", "R", "JMP", "JMPC", "JMPNC"]

theorem makeCommand_unknown (m : String) (args : List String) (h : m ∉ mnemonics) :
    makeCommand m args = Except.error (IlError.unknownInstruction m) := by
  simp only [mnemonics, List.mem_cons, List.mem_singleton, not_or] at h
  obtain ⟨h1, h2, h3, h4, h5, h6, h7, h8, h9, h10, h11, h12, h13, h14, h15, h16,
    h17, h18, h19, -⟩ := h
  simp [makeCommand, h1, h2, h3, h4, h5, h6, h7, h8, h9, h10, h11, h12, h13, h14,
    h15, h16, h17, h18, h19]

/-- C5 counterexample: loading `Start: LD 1` followed by the unknown
mnemonic line `FOO 2` raises `UnknownInstruction("FOO")`, yet the machine
keeps the instruction and the label table entry loaded before the failure —
the failed load does leave partial program state. -/
theorem c5_counterexample :
    (load_program initInterpreter "Start: LD 1\nFOO 2").2 =
      some (IlError.unknownInstruction "FOO") ∧
    (load_program initInterpreter "Start: LD 1\nFOO 2").1.program = [Command.load "1"] ∧
    dictGet (load_program initInterpreter "Start: LD 1\nFOO 2").1.labels "Start" =
      some 0 := by decide

/-- C5 amended: a line whose mnemonic is not in the dispatch table makes the
loading loop raise `UnknownInstruction` with that mnemonic, before any
execution — but the loop stops right there, keeping the machine exactly as
the lines already processed left it: instructions and labels loaded before
the offending line remain, and the lines after it are never processed. -/
theorem c5_amended_unknown_mnemonic_aborts_load (st : ILInterpreter) (line : String)
    (rest : List String) (m : String) (args : List String)
    (hsplit : pySplitWhitespace line = m :: args)
    (hnocolon : splitColonOnce line.data = none)
    (hm : m ∉ mnemonics) :
    loadLines st (line :: rest) = (st, some (IlError.unknownInstruction m)) := by
  have hline : (line ≠ "") = True := by
    simp only [ne_eq, eq_iff_iff, iff_true]
    intro h0
    subst h0
    rw [show pySplitWhitespace "" = [] from rfl] at hsplit
    simp at hsplit
  simp [loadLines, loadLine, hnocolon, hline, parseIlLine, hsplit,
    makeCommand_unknown m args hm]

/-- Witness for the amended C5 at the line `FOO 2`. -/
theorem c5_amended_witness :
    loadLines initInterpreter ["FOO 2"] =
      (initInterpreter, some (IlError.unknownInstruction "FOO")) :=
  c5_amended_unknown_mnemonic_aborts_load initInterpreter "FOO 2" [] "FOO" ["2"]
    (by decide) (by decide) (by decide)

/-! ### C10: a trailing label is a valid exit target -/

theorem loadLines_cons_ok (st st2 : ILInterpreter) (l : String) (ls' : List String)
    (hl : loadLine st l = (st2, none)) :
    loadLines st (l :: ls') = loadLines st2 ls' := by
  unfold loadLines
  rw [hl]
  cases ls' <;> rfl

theorem loadLines_cons_err (st st2 : ILInterpreter) (l : String) (ls' : List String)
    (e : IlError) (hl : loadLine st l = (st2, some e)) :
    loadLines st (l :: ls') = (st2, some e) := by
  unfold loadLines
  rw [hl]

theorem loadLines_append (st : ILInterpreter) (ls1 ls2 : List String)
    (st1 : ILInterpreter) (h : loadLines st ls1 = (st1, none)) :
    loadLines st (ls1 ++ ls2) = loadLines st1 ls2 := by
  induction ls1 generalizing st with
  | nil =>
    simp only [loadLines, Prod.mk.injEq] at h
    rw [List.nil_append, h.1]
  | cons l rest ih =>
    rw [List.cons_append]
    cases hl : loadLine st l with
    | mk st2 err =>
      cases err with
      | none =>
        rw [loadLines_cons_ok st st2 l (rest ++ ls2) hl]
        rw [loadLines_cons_ok st st2 l rest hl] at h
        exact ih st2 h
      | some e =>
        rw [loadLines_cons_err st st2 l rest e hl] at h
        simp at h

/-- A stripped line of the shape `L:` records the label `L.strip()` at the
current instruction count and appends nothing. -/
theorem loadLine_label_only (st1 : ILInterpreter) (L : String)
    (hsplit : splitColonOnce (L ++ ":").data = some (L.data, [])) :
    loadLine st1 (L ++ ":") =
      ({ st1 with labels := dictSet st1.labels (pyStrip L) st1.program.length },
        none) := by
  unfold loadLine
  rw [hsplit]
  rfl

/-- C10: a label line at the end of the program text is recorded with index
equal to the final instruction count (the label consumes no slot), and a
`JMP` — or a taken `JMPC`/`JMPNC` — to a label bound to the instruction
count sets the program counter past the last instruction, so the run loop's
post-increment lands at the length, the loop condition fails and `run`
finishes normally. -/
theorem c10_trailing_label_exits :
    (∀ st ls st1 L, loadLines st ls = (st1, none) →
      splitColonOnce (L ++ ":").data = some (L.data, []) →
      loadLines st (ls ++ [L ++ ":"]) =
        ({ st1 with labels := dictSet st1.labels (pyStrip L) st1.program.length },
          none)) ∧
    (∀ st L (a : Value), dictGet st.labels L = some st.program.length →
      dictGet st.registers "ACC" = some a →
      ∀ fuel c,
        (c = Command.jmp L ∨ (c = Command.jmpc L ∧ a.truthy = true) ∨
          (c = Command.jmpnc L ∧ a.truthy = false)) →
        st.program_counter < (st.program.length : Int) →
        pyListGet st.program st.program_counter = some c →
        run (fuel + 2) st =
          RunResult.done { st with registers := debug_registers st.registers
                                   program_counter := (st.program.length : Int) }) := by
  constructor
  · intro st ls st1 L hload hsplit
    rw [loadLines_append st ls [L ++ ":"] st1 hload]
    rw [loadLines_cons_ok st1 _ (L ++ ":") [] (loadLine_label_only st1 L hsplit)]
    rfl
  · intro st L a hL hacc fuel c hc hpc hfetch
    have hjump : executeCommand st c =
        Except.ok { st with registers := debug_registers st.registers
                            program_counter := (st.program.length : Int) - 1 } := by
      rcases hc with rfl | ⟨rfl, ht⟩ | ⟨rfl, ht⟩
      · simp [executeCommand, rawExecute, executeJmp, getLabel, hL, bind,
          Except.bind, Except.map]
      · simp [executeCommand, rawExecute, executeJmpc, getRegister, getLabel, hacc,
          hL, ht, bind, Except.bind, Except.map]
      · simp [executeCommand, rawExecute, executeJmpnc, getRegister, getLabel, hacc,
          hL, ht, bind, Except.bind, Except.map]
    rw [run]
    simp only [hpc, if_true, hfetch, hjump]
    have heq : (st.program.length : Int) - 1 + 1 = (st.program.length : Int) := by
      omega
    rw [heq, run]
    have hstop : ¬ ((st.program.length : Int) < (st.program.length : Int)) := by
      omega
    simp [hstop]

/-- Witness for C10: load `LD 1` then the label-only line `End:`, and run a
jump aimed at that trailing label. -/
theorem c10_witness :
    loadLines initInterpreter (["LD 1"] ++ ["End" ++ ":"]) =
      ({ registers := [("ACC", Value.int 0)]
         program := [Command.load "1"]
         program_counter := 0
         labels := [("End", 1)] }, none) ∧
    run 2 { registers := [("ACC", Value.int 1)]
            program := [Command.load "1", Command.jmp "End"]
            program_counter := 1
            labels := [("End", 2)] } =
      RunResult.done
        { registers := debug_registers [("ACC", Value.int 1)]
          program := [Command.load "1", Command.jmp "End"]
          program_counter := (2 : Int)
          labels := [("End", 2)] } :=
  ⟨c10_trailing_label_exits.1 initInterpreter ["LD 1"]
      { registers := [("ACC", Value.int 0)]
        program := [Command.load "1"]
        program_counter := 0
        labels := [] } "End" (by decide) (by decide),
   c10_trailing_label_exits.2
      { registers := [("ACC", Value.int 1)]
        program := [Command.load "1", Command.jmp "End"]
        program_counter := 1
        labels := [("End", 2)] } "End" (Value.int 1) (by decide) (by decide) 0
      (Command.jmp "End") (Or.inl rfl) (by decide) (by decide)⟩
